import Mathlib

/-!
# Gacha-Neon: shallow embedding of the draw state machine

This file embeds the core logic of `src/index.tsx` (the BBITS GACHA toy):
the game-phase state machine, the three modes (FATE / SQUAD / GIFT), the
ball-population synchronisation, the gift-exchange sequencer, and the
Google-Drive URL normaliser, and proves the testable properties of the
design document against those definitions.

Randomness (`Math.random`) is modelled by explicit parameters: a `rand`
index source for the Fisher–Yates shuffle, a `sampler` producing the
freshly spawned balls, and a plain index `k` for the uniform pick from a
fate list.  Timers (`setTimeout`) are modelled as separate step functions
(`spinTimerFire` for the 2 s phase timer).
-/

namespace GachaNeon

/-- Game phase: `useState<'IDLE' | 'SPINNING' | 'RESULT'>('IDLE')`. -/
inductive GameState where
  | IDLE
  | SPINNING
  | RESULT
deriving DecidableEq, Repr

/-- Game mode: `useState<'FATE' | 'SQUAD' | 'GIFT'>('FATE')`. -/
inductive Mode where
  | FATE
  | SQUAD
  | GIFT
deriving DecidableEq, Repr

/-- One ball entity of the `balls` state of `GameScene`:
`{ id: string, pos: [number, number, number], color: string }`.
The uuid identifier is modelled as a `Nat`. -/
structure BallE where
  id : Nat
  pos : Int × Int × Int
  color : String
deriving DecidableEq, Repr

/-- Default ball used to totalise the JS indexing `balls[balls.length - 1]`. -/
def dummyBall : BallE := { id := 0, pos := (0, 0, 0), color := "" }

/-- The `App` component state relevant to the draw logic (`src/index.tsx`,
`App`): phase, mode, revealed fate, spin counter, the three rosters, the
gift-exchange permutation and cursor, the synced prize color and the
reset trigger. -/
structure AppState where
  gameState : GameState
  mode : Mode
  fate : Option String
  spinCount : Nat
  fates : List String
  squadList : List String
  activeSquad : List String
  exchangeOrder : List String
  exchangeIndex : Nat
  prizeColor : String
  resetTrigger : Nat
deriving DecidableEq, Repr

/-! ## Fisher–Yates shuffle (`shuffleArray`, lines 259–266)

`shuffleArray` copies its input and, for `i` from `length-1` down to `1`,
swaps positions `i` and `j` where `j = Math.floor(Math.random()*(i+1))`.
The random draw is modelled by `rand : Nat → Nat`; the value used at step
`i` is `rand i % (i+1)`, which ranges over `0..i` exactly as the source's
`j` does. -/

/-- Swap the entries at positions `i` and `j`
(`[arr[i], arr[j]] = [arr[j], arr[i]]`); out-of-range indices leave the
list unchanged (never hit by `shuffleArray`). -/
def listSwap (l : List String) (i j : Nat) : List String :=
  match l.get? i, l.get? j with
  | some a, some b => (l.set i b).set j a
  | _, _ => l

/-- The descending loop of `shuffleArray`: argument `i` is the current
loop counter; the loop body runs while `i > 0`. -/
def fyLoop (rand : Nat → Nat) (arr : List String) : Nat → List String
  | 0 => arr
  | Nat.succ k => fyLoop rand (listSwap arr (k + 1) (rand (k + 1) % (k + 2))) k

/-- `shuffleArray` (lines 259–266). -/
def shuffleArray (rand : Nat → Nat) (array : List String) : List String :=
  fyLoop rand array (array.length - 1)

/-! ## App-level handlers (`src/index.tsx`, `App`) -/

/-- `handleSpin` (lines 1487–1501): refuses only while `SPINNING`, else
starts a draw (phase to `SPINNING`, clears the revealed fate, bumps the
spin counter).  The scheduled 2 s timer is `spinTimerFire`. -/
def handleSpin (s : AppState) : AppState :=
  if s.gameState = GameState.SPINNING then s
  else { s with gameState := GameState.SPINNING, fate := none, spinCount := s.spinCount + 1 }

/-- The deferred `setTimeout(() => setGameState('RESULT'), 2000)` body
scheduled by `handleSpin`. -/
def spinTimerFire (s : AppState) : AppState :=
  { s with gameState := GameState.RESULT }

/-- `handlePieceSelected` (lines 1504–1506): stores the reported ball
color as the prize color. -/
def handlePieceSelected (color : String) (s : AppState) : AppState :=
  { s with prizeColor := color }

/-- `handleResult` (lines 1508–1518): records the drawn text, returns the
phase to `IDLE`, and does the per-mode bookkeeping — SQUAD filters the
drawn name out of the active squad, GIFT advances the exchange cursor. -/
def handleResult (text : String) (s : AppState) : AppState :=
  let s1 := { s with fate := some text, gameState := GameState.IDLE }
  match s.mode with
  | Mode.SQUAD => { s1 with activeSquad := s1.activeSquad.filter (fun p => p ≠ text) }
  | Mode.GIFT => { s1 with exchangeIndex := s1.exchangeIndex + 1 }
  | Mode.FATE => s1

/-- `handleReloadSquad` (lines 1429–1433): restores the active squad from
the master list and bumps the reset trigger. -/
def handleReloadSquad (s : AppState) : AppState :=
  { s with activeSquad := s.squadList, resetTrigger := s.resetTrigger + 1 }

/-- `handleStartGift` (lines 1435–1446): refuses rosters with fewer than
two entries with an alert message (returned as the second component) and
no state change; otherwise installs a shuffle of the master squad list as
the exchange order, resets the cursor, forces `IDLE` and bumps the reset
trigger. -/
def handleStartGift (rand : Nat → Nat) (s : AppState) : AppState × Option String :=
  if s.squadList.length < 2 then
    (s, some "Add at least 2 people to the Squad List for an exchange!")
  else
    ({ s with
        exchangeOrder := shuffleArray rand s.squadList,
        exchangeIndex := 0,
        gameState := GameState.IDLE,
        resetTrigger := s.resetTrigger + 1 }, none)

/-- `handleResetGift` (lines 1448–1453). -/
def handleResetGift (s : AppState) : AppState :=
  { s with exchangeOrder := [], exchangeIndex := 0, gameState := GameState.IDLE }

/-! ## Derived values (`useMemo`s of `App`) -/

/-- `currentBallCount` (lines 1533–1548), over the integers as in JS:
35 in FATE mode; the active-squad size in SQUAD mode, minus one while a
result is shown and the squad is non-empty; in GIFT mode the master-list
size before an exchange starts, else the remaining participants, minus
one while a result is shown and some remain. -/
def currentBallCount (s : AppState) : Int :=
  match s.mode with
  | Mode.FATE => 35
  | Mode.SQUAD =>
    let base : Int := s.activeSquad.length
    if s.gameState = GameState.RESULT ∧ base > 0 then base - 1 else base
  | Mode.GIFT =>
    if s.exchangeOrder.length = 0 then (s.squadList.length : Int)
    else
      let remaining : Int := (s.exchangeOrder.length : Int) - (s.exchangeIndex : Int)
      if s.gameState = GameState.RESULT ∧ remaining > 0 then remaining - 1 else remaining

/-- `fixedResult` (lines 1551–1559): in GIFT mode with a started
exchange, the participant at `(exchangeIndex + 1) % length` — the next
recipient in the cyclic chain. -/
def fixedResultOf (s : AppState) : Option String :=
  if s.mode = Mode.GIFT ∧ s.exchangeOrder.length > 0 then
    some (s.exchangeOrder.getD ((s.exchangeIndex + 1) % s.exchangeOrder.length) "")
  else none

/-- `currentGiver` (lines 1562–1567): the participant at the cursor while
it is in range, else `null`. -/
def currentGiverOf (s : AppState) : Option String :=
  if s.mode = Mode.GIFT ∧ s.exchangeOrder.length > 0 ∧
      s.exchangeIndex < s.exchangeOrder.length then
    some (s.exchangeOrder.getD s.exchangeIndex "")
  else none

/-- The `fateList` prop handed to `GameScene` (line 1855):
`mode === 'FATE' ? fates : activeSquad`. -/
def fateListOf (s : AppState) : List String :=
  if s.mode = Mode.FATE then s.fates else s.activeSquad

/-- `toggleMode` (lines 1408–1427): cycles FATE → SQUAD → GIFT → FATE;
entering SQUAD reloads an empty active squad from the master list,
entering GIFT discards any exchange in progress. -/
def toggleMode (s : AppState) : AppState :=
  let newMode :=
    match s.mode with
    | Mode.FATE => Mode.SQUAD
    | Mode.SQUAD => Mode.GIFT
    | Mode.GIFT => Mode.FATE
  match newMode with
  | Mode.SQUAD =>
    if s.activeSquad.length = 0 then
      { s with mode := newMode, activeSquad := s.squadList }
    else { s with mode := newMode }
  | Mode.GIFT => { s with mode := newMode, exchangeOrder := [], exchangeIndex := 0 }
  | Mode.FATE => { s with mode := newMode }

/-! ## GameScene: ball population sync and draw reporting -/

/-- The ball sync effect of `GameScene` (lines 816–846): keep the list
when its length already equals `ballCount`; `slice(0, ballCount)` when it
is longer; append `ballCount - length` freshly sampled balls when it is
shorter.  `sampler i` models the `i`-th newly constructed ball (fresh
uuid, random position in the spawn volume, random palette color). -/
def syncBalls (sampler : Nat → BallE) (prev : List BallE) (ballCount : Nat) : List BallE :=
  if prev.length = ballCount then prev
  else if ballCount < prev.length then prev.take ballCount
  else prev ++ (List.range (ballCount - prev.length)).map sampler

/-- The `onPieceSelected` effect of `GameScene` (lines 849–857): when the
phase becomes `SPINNING` and the population is non-empty, report the
color of `balls[balls.length - 1]` (the ball the next shrink removes). -/
def onPieceSelectedColor (gameState : GameState) (balls : List BallE) : Option String :=
  if gameState = GameState.SPINNING ∧ balls.length > 0 then
    some ((balls.getD (balls.length - 1) dummyBall).color)
  else none

/-- Composition of the `onPieceSelected` report with the `App` callback
`handlePieceSelected`: the app state after the spin-start report. -/
def reportSelected (balls : List BallE) (s : AppState) : AppState :=
  match onPieceSelectedColor GameState.SPINNING balls with
  | some c => handlePieceSelected c s
  | none => s

/-- The prize pick of the prize `Ball`'s `onClick` (lines 899–912):
`fixedResult || (fateList.length > 0 ? fateList[random] : "NO TARGETS")`.
JS `||` skips a `null` and also an empty-string fixed result.  `k` models
the uniform random index. -/
def pickResult (fixedResult : Option String) (fateList : List String) (k : Nat) : String :=
  let fallback :=
    if fateList.length > 0 then fateList.getD (k % fateList.length) "" else "NO TARGETS"
  match fixedResult with
  | some f => if f = "" then fallback else f
  | none => fallback

/-- Clicking the revealed prize ball: picks the result and hands it to
`onPrizeClaim = handleResult`. -/
def claimPrize (k : Nat) (s : AppState) : AppState :=
  handleResult (pickResult (fixedResultOf s) (fateListOf s) k) s

/-- One full user-visible draw cycle: press SPIN, let the 2 s timer fire,
claim the revealed prize. -/
def drawCycle (k : Nat) (s : AppState) : AppState :=
  claimPrize k (spinTimerFire (handleSpin s))

/-- `n` consecutive draw cycles. -/
def iterCycles (k : Nat) : Nat → AppState → AppState
  | 0, s => s
  | Nat.succ n, s => iterCycles k n (drawCycle k s)

/-! ## `convertDriveLink` (lines 243–256)

The JS regexes `/\/d\/([a-zA-Z0-9_-]+)/` and `/id=([a-zA-Z0-9_-]+)/` are
expanded into explicit left-to-right scanners over the character list:
at each position, the pattern matches iff the literal prefix (`/d/`,
`id=`) is present and at least one id character follows; the captured
group is the maximal id-character run after the prefix. -/

/-- The regex character class `[a-zA-Z0-9_-]`. -/
def isIdChar (c : Char) : Bool :=
  c.isAlpha || c.isDigit || c = '_' || c = '-'

/-- Try the `/d/<id>` pattern anchored at the head of the list. -/
def matchDAt (hay : List Char) : Option (List Char) :=
  match hay with
  | '/' :: 'd' :: '/' :: rest =>
    if rest.takeWhile isIdChar = [] then none else some (rest.takeWhile isIdChar)
  | _ => none

/-- First (leftmost) match of `/\/d\/([a-zA-Z0-9_-]+)/`. -/
def findDMatch : List Char → Option (List Char)
  | [] => none
  | c :: t =>
    match matchDAt (c :: t) with
    | some r => some r
    | none => findDMatch t

/-- Try the `id=<id>` pattern anchored at the head of the list. -/
def matchIdAt (hay : List Char) : Option (List Char) :=
  match hay with
  | 'i' :: 'd' :: '=' :: rest =>
    if rest.takeWhile isIdChar = [] then none else some (rest.takeWhile isIdChar)
  | _ => none

/-- First (leftmost) match of `/id=([a-zA-Z0-9_-]+)/`. -/
def findIdMatch : List Char → Option (List Char)
  | [] => none
  | c :: t =>
    match matchIdAt (c :: t) with
    | some r => some r
    | none => findIdMatch t

/-- `hay.includes(needle)`: substring containment on character lists. -/
def containsSub (needle : List Char) : List Char → Bool
  | [] => decide (needle = [])
  | c :: t => needle.isPrefixOf (c :: t) || containsSub needle t

/-- The id match of line 249: the `/d/` regex takes precedence, the
`id=` regex is only consulted when it fails. -/
def driveIdMatch (hay : List Char) : Option (List Char) :=
  match findDMatch hay with
  | some r => some r
  | none => findIdMatch hay

/-- `convertDriveLink` (lines 243–256). -/
def convertDriveLink (url : String) : String :=
  if url = "" then ""
  else if containsSub "drive.google.com".toList url.toList then
    match driveIdMatch url.toList with
    | some r => "https://drive.google.com/uc?export=view&id=" ++ String.mk r
    | none => url
  else url

/-- The Exchange Assignment invariant: once an exchange is started the
cursor never passes the end of the permutation. -/
def cursorInv (s : AppState) : Prop :=
  s.exchangeOrder ≠ [] → s.exchangeIndex ≤ s.exchangeOrder.length

/-- The SPIN button of lines 1758–1781 is rendered and enabled. -/
def spinAvailable (s : AppState) : Prop :=
  s.gameState = GameState.IDLE
  ∧ ¬(s.mode = Mode.SQUAD ∧ s.activeSquad = [])
  ∧ (s.mode = Mode.GIFT →
      s.exchangeOrder ≠ [] ∧ s.exchangeIndex < s.exchangeOrder.length)

/-! ## Concrete states used by the witnesses and counterexamples -/

/-- A plain fresh session state (the `useState` initialisers of `App`,
with two squad members edited in). -/
def baseState : AppState :=
  { gameState := GameState.IDLE
    mode := Mode.FATE
    fate := none
    spinCount := 0
    fates := ["SSR Pull Incoming", "Critical Hit!"]
    squadList := ["Alice", "Bob"]
    activeSquad := ["Alice", "Bob"]
    exchangeOrder := []
    exchangeIndex := 0
    prizeColor := "#FFD700"
    resetTrigger := 0 }

/-- GIFT mode before an exchange is started. -/
def giftIdleState : AppState := { baseState with mode := Mode.GIFT }

/-- GIFT mode with a started exchange over two participants. -/
def giftRunState : AppState :=
  { baseState with mode := Mode.GIFT, exchangeOrder := ["Bob", "Alice"], exchangeIndex := 0 }

/-- A mid-draw state in the `RESULT` phase (prize revealed, not yet
claimed). -/
def midDrawState : AppState :=
  { baseState with gameState := GameState.RESULT, spinCount := 3 }

/-- A mid-draw state in the `SPINNING` phase. -/
def spinningState : AppState :=
  { baseState with gameState := GameState.SPINNING, spinCount := 2 }

/-- SQUAD mode whose active roster holds the drawn name twice. -/
def dupSquadState : AppState :=
  { baseState with
    mode := Mode.SQUAD
    gameState := GameState.RESULT
    squadList := ["Ann", "Ann", "Ben"]
    activeSquad := ["Ann", "Ann", "Ben"] }

/-- SQUAD mode with a duplicate-free active roster, in the `RESULT`
phase. -/
def squadRunState : AppState :=
  { baseState with mode := Mode.SQUAD, gameState := GameState.RESULT }

/-- SQUAD mode with an empty active roster, in the `RESULT` phase. -/
def emptySquadState : AppState :=
  { baseState with mode := Mode.SQUAD, gameState := GameState.RESULT, activeSquad := [] }

/-- A one-person squad (too small for a gift exchange). -/
def soloState : AppState :=
  { baseState with squadList := ["Solo"], activeSquad := ["Solo"] }

/-- A concrete three-ball population. -/
def demoBalls : List BallE :=
  [ { id := 10, pos := (1, 2, 3), color := "#00F0FF" },
    { id := 11, pos := (4, 5, 6), color := "#FF2E88" },
    { id := 12, pos := (7, 8, 9), color := "#FFD700" } ]

/-- A concrete sampler for freshly spawned balls. -/
def demoSampler (i : Nat) : BallE :=
  { id := 100 + i, pos := (0, 0, 0), color := "#B026FF" }

/-! ## Permutation lemmas for the shuffle -/

/-- Pulling the `m`-th element to the front while writing `a` in its
place permutes the list with `a` consed in front. -/
theorem get_cons_set_perm {α : Type} (l : List α) (m : Nat) (hm : m < l.length) (a : α) :
    List.Perm (l.get ⟨m, hm⟩ :: l.set m a) (a :: l) := by
  induction l generalizing m with
  | nil => simp at hm
  | cons b t ih =>
    cases m with
    | zero =>
      simpa using List.Perm.swap a b t
    | succ k =>
      have hk : k < t.length := by simpa using hm
      have h1 : List.Perm (t.get ⟨k, hk⟩ :: b :: t.set k a) (b :: t.get ⟨k, hk⟩ :: t.set k a) :=
        List.Perm.swap b (t.get ⟨k, hk⟩) (t.set k a)
      have h2 : List.Perm (b :: t.get ⟨k, hk⟩ :: t.set k a) (b :: a :: t) :=
        List.Perm.cons b (ih k hk)
      have h3 : List.Perm (b :: a :: t) (a :: b :: t) := List.Perm.swap a b t
      simpa using (h1.trans h2).trans h3

/-- Exchanging two in-range entries is a permutation. -/
theorem set_set_perm {α : Type} (l : List α) (i j : Nat) (hi : i < l.length)
    (hj : j < l.length) :
    List.Perm ((l.set i (l.get ⟨j, hj⟩)).set j (l.get ⟨i, hi⟩)) l := by
  induction l generalizing i j with
  | nil => simp at hi
  | cons b t ih =>
    cases i with
    | zero =>
      cases j with
      | zero => simp
      | succ k =>
        have hk : k < t.length := by simpa using hj
        simpa using get_cons_set_perm t k hk b
    | succ m =>
      have hm : m < t.length := by simpa using hi
      cases j with
      | zero =>
        simpa using get_cons_set_perm t m hm b
      | succ k =>
        have hk : k < t.length := by simpa using hj
        simpa using List.Perm.cons b (ih m k hm hk)

/-- `listSwap` permutes its input (identically when out of range). -/
theorem listSwap_perm (l : List String) (i j : Nat) : List.Perm (listSwap l i j) l := by
  cases hgi : l.get? i with
  | none =>
    rw [List.get?_eq_getElem?] at hgi
    simp [listSwap, List.get?_eq_getElem?, hgi]
  | some a =>
    cases hgj : l.get? j with
    | none =>
      rw [List.get?_eq_getElem?] at hgi hgj
      simp [listSwap, List.get?_eq_getElem?, hgi, hgj]
    | some b =>
      obtain ⟨hi, ha⟩ := List.get?_eq_some.mp hgi
      obtain ⟨hj, hb⟩ := List.get?_eq_some.mp hgj
      have h := set_set_perm l i j hi hj
      rw [ha, hb] at h
      rw [List.get?_eq_getElem?] at hgi hgj
      simpa [listSwap, List.get?_eq_getElem?, hgi, hgj] using h

/-- The Fisher–Yates loop permutes its input. -/
theorem fyLoop_perm (rand : Nat → Nat) (arr : List String) (n : Nat) :
    List.Perm (fyLoop rand arr n) arr := by
  induction n generalizing arr with
  | zero => exact List.Perm.refl arr
  | succ k ih =>
    exact List.Perm.trans (ih _) (listSwap_perm arr (k + 1) (rand (k + 1) % (k + 2)))

/-- `shuffleArray` returns a permutation of its input. -/
theorem shuffleArray_perm (rand : Nat → Nat) (array : List String) :
    List.Perm (shuffleArray rand array) array :=
  fyLoop_perm rand array (array.length - 1)

/-! ## Frame lemmas for the handlers -/

theorem handleSpin_mode (s : AppState) : (handleSpin s).mode = s.mode := by
  unfold handleSpin; split <;> rfl

theorem handleSpin_exchangeOrder (s : AppState) :
    (handleSpin s).exchangeOrder = s.exchangeOrder := by
  unfold handleSpin; split <;> rfl

theorem handleSpin_exchangeIndex (s : AppState) :
    (handleSpin s).exchangeIndex = s.exchangeIndex := by
  unfold handleSpin; split <;> rfl

theorem handleSpin_squadList (s : AppState) : (handleSpin s).squadList = s.squadList := by
  unfold handleSpin; split <;> rfl

theorem handleSpin_activeSquad (s : AppState) : (handleSpin s).activeSquad = s.activeSquad := by
  unfold handleSpin; split <;> rfl

theorem handleResult_fate (t : String) (s : AppState) : (handleResult t s).fate = some t := by
  unfold handleResult; cases s.mode <;> rfl

theorem handleResult_gameState (t : String) (s : AppState) :
    (handleResult t s).gameState = GameState.IDLE := by
  unfold handleResult; cases s.mode <;> rfl

theorem handleResult_mode (t : String) (s : AppState) : (handleResult t s).mode = s.mode := by
  unfold handleResult; cases s.mode <;> rfl

theorem handleResult_squadList (t : String) (s : AppState) :
    (handleResult t s).squadList = s.squadList := by
  unfold handleResult; cases s.mode <;> rfl

theorem handleResult_exchangeOrder (t : String) (s : AppState) :
    (handleResult t s).exchangeOrder = s.exchangeOrder := by
  unfold handleResult; cases s.mode <;> rfl

theorem handleResult_exchangeIndex_gift (t : String) (s : AppState) (h : s.mode = Mode.GIFT) :
    (handleResult t s).exchangeIndex = s.exchangeIndex + 1 := by
  unfold handleResult; rw [h]

theorem handleResult_activeSquad_squad (t : String) (s : AppState) (h : s.mode = Mode.SQUAD) :
    (handleResult t s).activeSquad = s.activeSquad.filter (fun p => p ≠ t) := by
  unfold handleResult; rw [h]

/-- One draw cycle in GIFT mode: the mode and the permutation survive,
the cursor advances by exactly one, and the phase returns to `IDLE`. -/
theorem drawCycle_gift (k : Nat) (s : AppState) (hm : s.mode = Mode.GIFT) :
    (drawCycle k s).mode = Mode.GIFT
    ∧ (drawCycle k s).exchangeOrder = s.exchangeOrder
    ∧ (drawCycle k s).exchangeIndex = s.exchangeIndex + 1
    ∧ (drawCycle k s).gameState = GameState.IDLE := by
  unfold drawCycle claimPrize
  have hmode : (spinTimerFire (handleSpin s)).mode = Mode.GIFT := by
    simpa [spinTimerFire, handleSpin_mode] using hm
  refine ⟨?_, ?_, ?_, ?_⟩
  · rw [handleResult_mode]; exact hmode
  · rw [handleResult_exchangeOrder]; simp [spinTimerFire, handleSpin_exchangeOrder]
  · rw [handleResult_exchangeIndex_gift _ _ hmode]
    simp [spinTimerFire, handleSpin_exchangeIndex]
  · exact handleResult_gameState _ _

/-- Iterating draw cycles in GIFT mode advances the cursor linearly and
keeps the permutation. -/
theorem iterCycles_gift (k n : Nat) (s : AppState) (hm : s.mode = Mode.GIFT) :
    (iterCycles k n s).mode = Mode.GIFT
    ∧ (iterCycles k n s).exchangeOrder = s.exchangeOrder
    ∧ (iterCycles k n s).exchangeIndex = s.exchangeIndex + n := by
  induction n generalizing s with
  | zero => exact ⟨hm, rfl, rfl⟩
  | succ m ih =>
    simp only [iterCycles]
    obtain ⟨h1, h2, h3, _⟩ := drawCycle_gift k s hm
    obtain ⟨g1, g2, g3⟩ := ih (drawCycle k s) h1
    refine ⟨g1, by rw [g2, h2], ?_⟩
    rw [g3, h3]
    omega

/-! ## Counting lemmas for the SQUAD elimination -/

/-- Filtering one name out removes exactly `count` many entries. -/
theorem filter_ne_length (l : List String) (t : String) :
    (l.filter (fun p => p ≠ t)).length + l.count t = l.length := by
  induction l with
  | nil => simp
  | cons a l ih =>
    by_cases h : a = t
    · subst h
      have hf : (a :: l).filter (fun p => p ≠ a) = l.filter (fun p => p ≠ a) := by
        simp [List.filter_cons]
      rw [hf, List.count_cons_self]
      simp only [List.length_cons]
      omega
    · have hf : (a :: l).filter (fun p => p ≠ t) = a :: l.filter (fun p => p ≠ t) := by
        simp [List.filter_cons, h]
      have hc : (a :: l).count t = l.count t :=
        List.count_cons_of_ne (fun e => h e.symm) l
      rw [hf, hc, List.length_cons, List.length_cons]
      omega

/-- Filtering one name out leaves every other name's count intact. -/
theorem count_filter_ne (l : List String) (t x : String) (hx : x ≠ t) :
    (l.filter (fun p => p ≠ t)).count x = l.count x :=
  List.count_filter (by simpa using hx)

theorem not_mem_filter_ne (l : List String) (t : String) :
    t ∉ l.filter (fun p => p ≠ t) := by
  intro hmem
  have := List.of_mem_filter hmem
  simp at this

/-! ## The exchange-cursor invariant (design §3: `0 ≤ cursor ≤ N`)

The action-button dispatch (lines 1720–1782) renders the SPIN control
only when it is meaningful: never with an empty active squad in SQUAD
mode, and in GIFT mode only while the exchange is started and the cursor
is still in range (otherwise START / RESET EXCHANGE take its place); the
control is moreover disabled away from `IDLE`.  Under that gating every
operation of the app preserves `cursor ≤ N`. -/

theorem handleResult_exchangeIndex_nonGift (t : String) (s : AppState)
    (h : s.mode ≠ Mode.GIFT) : (handleResult t s).exchangeIndex = s.exchangeIndex := by
  unfold handleResult
  cases hm : s.mode
  · rfl
  · rfl
  · exact absurd hm h

theorem cursorInv_startGift (rand : Nat → Nat) (s : AppState) (h : cursorInv s) :
    cursorInv (handleStartGift rand s).1 := by
  unfold handleStartGift
  split
  · exact h
  · intro _
    simp

theorem cursorInv_resetGift (s : AppState) : cursorInv (handleResetGift s) := by
  intro h
  simp [handleResetGift] at h

theorem cursorInv_reloadSquad (s : AppState) (h : cursorInv s) :
    cursorInv (handleReloadSquad s) := h

theorem cursorInv_toggleMode (s : AppState) (h : cursorInv s) : cursorInv (toggleMode s) := by
  unfold toggleMode
  cases s.mode
  · dsimp only
    split <;> exact h
  · intro hne
    simp at hne
  · exact h

theorem cursorInv_handleSpin (s : AppState) (h : cursorInv s) : cursorInv (handleSpin s) := by
  unfold handleSpin
  split
  · exact h
  · exact h

theorem cursorInv_spinTimerFire (s : AppState) (h : cursorInv s) :
    cursorInv (spinTimerFire s) := h

/-- A full draw cycle launched from an available SPIN button keeps the
cursor in range: in GIFT mode the button exists only while
`cursor < N`, and the claim advances it by exactly one. -/
theorem cursorInv_drawCycle (k : Nat) (s : AppState) (ha : spinAvailable s)
    (hI : cursorInv s) : cursorInv (drawCycle k s) := by
  by_cases hm : s.mode = Mode.GIFT
  · obtain ⟨-, -, hg⟩ := ha
    obtain ⟨hne, hlt⟩ := hg hm
    obtain ⟨-, h2, h3, -⟩ := drawCycle_gift k s hm
    intro _
    rw [h2, h3]
    omega
  · have hmode : (spinTimerFire (handleSpin s)).mode = s.mode := by
      simp [spinTimerFire, handleSpin_mode]
    intro hne
    unfold drawCycle claimPrize at hne ⊢
    rw [handleResult_exchangeIndex_nonGift _ _ (by rw [hmode]; exact hm),
      handleResult_exchangeOrder]
    rw [handleResult_exchangeOrder] at hne
    simp only [spinTimerFire, handleSpin_exchangeIndex, handleSpin_exchangeOrder] at hne ⊢
    exact hI hne

/-! ## Character-level facts about the Drive id matchers -/

theorem matchDAt_chars (hay r : List Char) (h : matchDAt hay = some r) :
    r ≠ [] ∧ ∀ c ∈ r, isIdChar c = true := by
  unfold matchDAt at h
  split at h
  · split at h
    · exact absurd h (by simp)
    · rename_i hrun
      injection h with h
      subst h
      exact ⟨hrun, fun c hc => List.mem_takeWhile_imp hc⟩
  · exact absurd h (by simp)

theorem findDMatch_chars (hay r : List Char) (h : findDMatch hay = some r) :
    r ≠ [] ∧ ∀ c ∈ r, isIdChar c = true := by
  induction hay with
  | nil => simp [findDMatch] at h
  | cons c t ih =>
    rw [findDMatch] at h
    cases hm : matchDAt (c :: t) with
    | some r2 =>
      rw [hm] at h
      injection h with h
      subst h
      exact matchDAt_chars _ _ hm
    | none =>
      rw [hm] at h
      exact ih h

theorem matchIdAt_chars (hay r : List Char) (h : matchIdAt hay = some r) :
    r ≠ [] ∧ ∀ c ∈ r, isIdChar c = true := by
  unfold matchIdAt at h
  split at h
  · split at h
    · exact absurd h (by simp)
    · rename_i hrun
      injection h with h
      subst h
      exact ⟨hrun, fun c hc => List.mem_takeWhile_imp hc⟩
  · exact absurd h (by simp)

theorem findIdMatch_chars (hay r : List Char) (h : findIdMatch hay = some r) :
    r ≠ [] ∧ ∀ c ∈ r, isIdChar c = true := by
  induction hay with
  | nil => simp [findIdMatch] at h
  | cons c t ih =>
    rw [findIdMatch] at h
    cases hm : matchIdAt (c :: t) with
    | some r2 =>
      rw [hm] at h
      injection h with h
      subst h
      exact matchIdAt_chars _ _ hm
    | none =>
      rw [hm] at h
      exact ih h

theorem driveIdMatch_chars (hay r : List Char) (h : driveIdMatch hay = some r) :
    r ≠ [] ∧ ∀ c ∈ r, isIdChar c = true := by
  unfold driveIdMatch at h
  cases hd : findDMatch hay with
  | some r2 =>
    rw [hd] at h
    injection h with h
    subst h
    exact findDMatch_chars _ _ hd
  | none =>
    rw [hd] at h
    exact findIdMatch_chars _ _ h

/-! ## The claims -/

/-- C6.  Validation refusal: starting a gift exchange from a master
roster with fewer than 2 entries yields the user-facing alert message and
leaves the whole app state — exchange order, cursor, phase, rosters —
exactly as it was. -/
theorem gift_validation_refusal (rand : Nat → Nat) (s : AppState)
    (h : s.squadList.length < 2) :
    handleStartGift rand s =
      (s, some "Add at least 2 people to the Squad List for an exchange!") := by
  unfold handleStartGift
  rw [if_pos h]

theorem gift_validation_refusal_witness :
    soloState.squadList.length < 2
    ∧ handleStartGift (fun _ => 0) soloState =
        (soloState, some "Add at least 2 people to the Squad List for an exchange!") :=
  ⟨by decide, gift_validation_refusal (fun _ => 0) soloState (by decide)⟩

/-- C7.  Empty-domain sentinel: claiming a prize with an empty candidate
list and no Gift-mode fixed result yields the "NO TARGETS" sentinel (and
records it as the revealed fate) — not an empty string. -/
theorem empty_domain_sentinel (s : AppState) (k : Nat)
    (hf : fateListOf s = []) (hx : fixedResultOf s = none) :
    pickResult (fixedResultOf s) (fateListOf s) k = "NO TARGETS"
    ∧ (claimPrize k s).fate = some "NO TARGETS"
    ∧ "NO TARGETS" ≠ "" := by
  have hp : pickResult (fixedResultOf s) (fateListOf s) k = "NO TARGETS" := by
    rw [hf, hx]
    simp [pickResult]
  refine ⟨hp, ?_, by decide⟩
  unfold claimPrize
  rw [hp, handleResult_fate]

theorem empty_domain_sentinel_witness :
    fateListOf emptySquadState = []
    ∧ fixedResultOf emptySquadState = none
    ∧ (pickResult (fixedResultOf emptySquadState) (fateListOf emptySquadState) 0 = "NO TARGETS"
       ∧ (claimPrize 0 emptySquadState).fate = some "NO TARGETS"
       ∧ "NO TARGETS" ≠ "") :=
  ⟨by decide, by decide, empty_domain_sentinel emptySquadState 0 (by decide) (by decide)⟩

/-- C9.  Exchange permutation: a successful `handleStartGift` installs a
permutation of the master squad roster (same multiset of names) as the
exchange order, resets the cursor to 0, raises no message, and leaves the
master roster itself untouched (the shuffle works on a copy). -/
theorem exchange_permutation (rand : Nat → Nat) (s : AppState)
    (h : 2 ≤ s.squadList.length) :
    List.Perm (handleStartGift rand s).1.exchangeOrder s.squadList
    ∧ (handleStartGift rand s).1.exchangeIndex = 0
    ∧ (handleStartGift rand s).1.squadList = s.squadList
    ∧ (handleStartGift rand s).2 = none := by
  have h2 : ¬ s.squadList.length < 2 := by omega
  unfold handleStartGift
  rw [if_neg h2]
  exact ⟨shuffleArray_perm rand s.squadList, rfl, rfl, rfl⟩

theorem exchange_permutation_witness :
    2 ≤ baseState.squadList.length
    ∧ (List.Perm (handleStartGift (fun _ => 0) baseState).1.exchangeOrder baseState.squadList
       ∧ (handleStartGift (fun _ => 0) baseState).1.exchangeIndex = 0
       ∧ (handleStartGift (fun _ => 0) baseState).1.squadList = baseState.squadList
       ∧ (handleStartGift (fun _ => 0) baseState).2 = none) :=
  ⟨by decide, exchange_permutation (fun _ => 0) baseState (by decide)⟩

/-- C2 counterexample: in the (reachable) `RESULT` phase — a phase that
is not `IDLE` — `handleSpin` is not a no-op: its guard checks only for
`SPINNING`, so it starts a fresh draw, moving the phase to `SPINNING` and
incrementing the spin counter. -/
theorem spin_not_noop_at_result :
    midDrawState.gameState = GameState.RESULT
    ∧ midDrawState.gameState ≠ GameState.IDLE
    ∧ handleSpin midDrawState ≠ midDrawState
    ∧ (handleSpin midDrawState).gameState = GameState.SPINNING
    ∧ (handleSpin midDrawState).spinCount = midDrawState.spinCount + 1 := by
  refine ⟨rfl, by decide, ?_, rfl, rfl⟩
  intro h
  have := congrArg AppState.gameState h
  simp [handleSpin, midDrawState, baseState] at this

/-- C2 (amended).  Mutual exclusion: `handleSpin` is a no-op exactly in
the `SPINNING` phase (its in-function guard); invoked in the `RESULT`
phase it does start a new draw — the phase moves to `SPINNING` and the
spin counter increments — while the rosters and the exchange state are
untouched.  (In the rendered UI the spin button is additionally
`disabled` whenever the phase is not `IDLE`, which is what prevents the
`RESULT`-phase invocation in practice.) -/
theorem mutual_exclusion_amended (s : AppState) :
    (s.gameState = GameState.SPINNING → handleSpin s = s)
    ∧ (s.gameState = GameState.RESULT →
        (handleSpin s).gameState = GameState.SPINNING
        ∧ (handleSpin s).spinCount = s.spinCount + 1
        ∧ (handleSpin s).activeSquad = s.activeSquad
        ∧ (handleSpin s).squadList = s.squadList
        ∧ (handleSpin s).exchangeOrder = s.exchangeOrder
        ∧ (handleSpin s).exchangeIndex = s.exchangeIndex) := by
  constructor
  · intro h
    unfold handleSpin
    rw [if_pos h]
  · intro h
    have hne : ¬ s.gameState = GameState.SPINNING := by
      rw [h]
      intro hc
      cases hc
    unfold handleSpin
    rw [if_neg hne]
    exact ⟨rfl, rfl, rfl, rfl, rfl, rfl⟩

theorem mutual_exclusion_amended_witness :
    (spinningState.gameState = GameState.SPINNING
     ∧ handleSpin spinningState = spinningState)
    ∧ (midDrawState.gameState = GameState.RESULT
       ∧ ((handleSpin midDrawState).gameState = GameState.SPINNING
          ∧ (handleSpin midDrawState).spinCount = midDrawState.spinCount + 1
          ∧ (handleSpin midDrawState).activeSquad = midDrawState.activeSquad
          ∧ (handleSpin midDrawState).squadList = midDrawState.squadList
          ∧ (handleSpin midDrawState).exchangeOrder = midDrawState.exchangeOrder
          ∧ (handleSpin midDrawState).exchangeIndex = midDrawState.exchangeIndex)) :=
  ⟨⟨by decide, (mutual_exclusion_amended spinningState).1 (by decide)⟩,
   ⟨by decide, (mutual_exclusion_amended midDrawState).2 (by decide)⟩⟩

/-- C3 counterexample: `handleResult` eliminates with
`filter(p => p !== text)`, which removes EVERY occurrence of the drawn
name.  With the active roster `["Ann", "Ann", "Ben"]`, claiming the
genuine draw "Ann" (the uniform pick at index 0) removes two entries,
not exactly one. -/
theorem squad_elim_counterexample :
    dupSquadState.mode = Mode.SQUAD
    ∧ pickResult (fixedResultOf dupSquadState) (fateListOf dupSquadState) 0 = "Ann"
    ∧ "Ann" ∈ dupSquadState.activeSquad
    ∧ dupSquadState.activeSquad.length = 3
    ∧ (claimPrize 0 dupSquadState).activeSquad = ["Ben"]
    ∧ (claimPrize 0 dupSquadState).activeSquad.length = 1 := by
  refine ⟨rfl, by decide, by decide, by decide, by decide, by decide⟩

/-- C3 (amended).  Squad elimination: a successfully claimed draw in
SQUAD mode removes every occurrence of the drawn name from the active
roster — exactly one entry when the drawn name occurs exactly once (in
particular for duplicate-free rosters) — and nothing else: the count of
every other name is untouched, the master roster is never modified, and
`handleReloadSquad` restores the active roster to the master roster's
current contents. -/
theorem squad_elimination_amended (s : AppState) (t : String) (hm : s.mode = Mode.SQUAD) :
    (s.activeSquad.count t = 1 →
      (handleResult t s).activeSquad.length + 1 = s.activeSquad.length)
    ∧ t ∉ (handleResult t s).activeSquad
    ∧ (∀ x, x ≠ t → (handleResult t s).activeSquad.count x = s.activeSquad.count x)
    ∧ (handleResult t s).activeSquad.length + s.activeSquad.count t = s.activeSquad.length
    ∧ (handleResult t s).squadList = s.squadList
    ∧ (handleReloadSquad s).activeSquad = s.squadList := by
  have hA := handleResult_activeSquad_squad t s hm
  refine ⟨?_, ?_, ?_, ?_, handleResult_squadList t s, rfl⟩
  · intro h1
    rw [hA]
    have := filter_ne_length s.activeSquad t
    omega
  · rw [hA]
    exact not_mem_filter_ne _ _
  · intro x hx
    rw [hA]
    exact count_filter_ne _ _ _ hx
  · rw [hA]
    exact filter_ne_length _ _

theorem squad_elimination_amended_witness :
    squadRunState.mode = Mode.SQUAD
    ∧ squadRunState.activeSquad.count "Alice" = 1
    ∧ (handleResult "Alice" squadRunState).activeSquad.length + 1
        = squadRunState.activeSquad.length
    ∧ "Alice" ∉ (handleResult "Alice" squadRunState).activeSquad
    ∧ (handleResult "Alice" squadRunState).squadList = squadRunState.squadList
    ∧ (handleReloadSquad squadRunState).activeSquad = squadRunState.squadList :=
  ⟨by decide, by decide,
   (squad_elimination_amended squadRunState "Alice" (by decide)).1 (by decide),
   (squad_elimination_amended squadRunState "Alice" (by decide)).2.1,
   (squad_elimination_amended squadRunState "Alice" (by decide)).2.2.2.2.1,
   (squad_elimination_amended squadRunState "Alice" (by decide)).2.2.2.2.2⟩

/-- C4.  Gift cycle correctness: with a started exchange of size
`N ≥ 2`, the fixed prize result is the participant at
`(cursor + 1) % N`; every claimed prize advances the cursor by exactly
one; the current giver is the participant at the cursor while
`cursor < N` and `null` once `cursor ≥ N`; and from a fresh exchange,
`N` full draw cycles leave the cursor at `N` — the `Complete` state, in
which the current giver is gone. -/
theorem gift_cycle_correctness (s : AppState) (N : Nat) (hm : s.mode = Mode.GIFT)
    (hlen : s.exchangeOrder.length = N) (hN : 2 ≤ N) :
    fixedResultOf s = some (s.exchangeOrder.getD ((s.exchangeIndex + 1) % N) "")
    ∧ (∀ t, (handleResult t s).exchangeIndex = s.exchangeIndex + 1)
    ∧ (s.exchangeIndex < N →
        currentGiverOf s = some (s.exchangeOrder.getD s.exchangeIndex ""))
    ∧ (N ≤ s.exchangeIndex → currentGiverOf s = none)
    ∧ (s.exchangeIndex = 0 → ∀ k,
        (iterCycles k N s).exchangeIndex = N
        ∧ currentGiverOf (iterCycles k N s) = none) := by
  have hpos : s.exchangeOrder.length > 0 := by omega
  refine ⟨?_, ?_, ?_, ?_, ?_⟩
  · unfold fixedResultOf
    rw [if_pos ⟨hm, hpos⟩, hlen]
  · intro t
    exact handleResult_exchangeIndex_gift t s hm
  · intro hlt
    unfold currentGiverOf
    rw [if_pos ⟨hm, hpos, by omega⟩]
  · intro hge
    unfold currentGiverOf
    rw [if_neg]
    intro hc
    obtain ⟨-, -, hlt⟩ := hc
    omega
  · intro h0 k
    obtain ⟨g1, g2, g3⟩ := iterCycles_gift k N s hm
    refine ⟨by rw [g3, h0]; omega, ?_⟩
    unfold currentGiverOf
    rw [if_neg]
    intro hc
    obtain ⟨-, -, hlt⟩ := hc
    rw [g3, g2, hlen, h0] at hlt
    omega

theorem gift_cycle_correctness_witness :
    giftRunState.mode = Mode.GIFT
    ∧ giftRunState.exchangeOrder.length = 2
    ∧ 2 ≤ 2
    ∧ (fixedResultOf giftRunState
        = some (giftRunState.exchangeOrder.getD ((giftRunState.exchangeIndex + 1) % 2) ""))
    ∧ (∀ t, (handleResult t giftRunState).exchangeIndex = giftRunState.exchangeIndex + 1)
    ∧ (giftRunState.exchangeIndex = 0 → ∀ k,
        (iterCycles k 2 giftRunState).exchangeIndex = 2
        ∧ currentGiverOf (iterCycles k 2 giftRunState) = none) :=
  ⟨by decide, by decide, by decide,
   (gift_cycle_correctness giftRunState 2 (by decide) (by decide) (by decide)).1,
   (gift_cycle_correctness giftRunState 2 (by decide) (by decide) (by decide)).2.1,
   (gift_cycle_correctness giftRunState 2 (by decide) (by decide) (by decide)).2.2.2.2⟩

/-- C1.  Attribute continuity: when the phase turns `SPINNING` over a
non-empty population, the color reported through `onPieceSelected` — and
stored as the prize color shown on the revealed prize ball, surviving
the 2 s timer — is the color of the last ball of the population array;
and the sync's next shrink-to-`length - 1` call removes exactly that
last ball (`slice(0, n)` keeps everything else), so the reported prize
attribute and the removed entity denote the same draw. -/
theorem attribute_continuity (balls : List BallE) (s : AppState) (sampler : Nat → BallE)
    (h : balls ≠ []) :
    onPieceSelectedColor GameState.SPINNING balls = some ((balls.getLast h).color)
    ∧ (reportSelected balls s).prizeColor = (balls.getLast h).color
    ∧ (spinTimerFire (reportSelected balls (handleSpin s))).prizeColor
        = (balls.getLast h).color
    ∧ syncBalls sampler balls (balls.length - 1) = balls.dropLast
    ∧ balls.dropLast ++ [balls.getLast h] = balls := by
  have hpos : 0 < balls.length := List.length_pos.mpr h
  have hlast : balls.getD (balls.length - 1) dummyBall = balls.getLast h := by
    rw [List.getD_eq_getElem balls dummyBall (by omega), List.getLast_eq_getElem balls h]
  have hsel : onPieceSelectedColor GameState.SPINNING balls
      = some ((balls.getLast h).color) := by
    unfold onPieceSelectedColor
    rw [if_pos ⟨rfl, hpos⟩, hlast]
  refine ⟨hsel, ?_, ?_, ?_, List.dropLast_append_getLast h⟩
  · unfold reportSelected
    rw [hsel]
    rfl
  · unfold reportSelected
    rw [hsel]
    rfl
  · unfold syncBalls
    rw [if_neg (by omega), if_pos (by omega)]
    exact (List.dropLast_eq_take balls).symm

theorem attribute_continuity_witness :
    demoBalls ≠ []
    ∧ (onPieceSelectedColor GameState.SPINNING demoBalls
        = some ((demoBalls.getLast (by decide)).color)
       ∧ (reportSelected demoBalls baseState).prizeColor
          = (demoBalls.getLast (by decide)).color
       ∧ (spinTimerFire (reportSelected demoBalls (handleSpin baseState))).prizeColor
          = (demoBalls.getLast (by decide)).color
       ∧ syncBalls demoSampler demoBalls (demoBalls.length - 1) = demoBalls.dropLast
       ∧ demoBalls.dropLast ++ [demoBalls.getLast (by decide)] = demoBalls) :=
  ⟨by decide, attribute_continuity demoBalls baseState demoSampler (by decide)⟩

/-- C5.  Population conservation / minimal edit: the ball sync is the
identity at the target length, truncates to the first `N` elements when
too long, and appends exactly the freshly sampled balls when too short;
the result always has length `N`, and every position untouched by the
edit keeps its original ball — identifier, position and color. -/
theorem population_conservation (sampler : Nat → BallE) (prev : List BallE) (N : Nat) :
    (prev.length = N → syncBalls sampler prev N = prev)
    ∧ (N < prev.length → syncBalls sampler prev N = prev.take N)
    ∧ (prev.length < N →
        syncBalls sampler prev N = prev ++ (List.range (N - prev.length)).map sampler
        ∧ ((List.range (N - prev.length)).map sampler).length = N - prev.length)
    ∧ (syncBalls sampler prev N).length = N
    ∧ (∀ i, i < prev.length → i < N → (syncBalls sampler prev N)[i]? = prev[i]?) := by
  refine ⟨?_, ?_, ?_, ?_, ?_⟩
  · intro h
    unfold syncBalls
    rw [if_pos h]
  · intro h
    unfold syncBalls
    rw [if_neg (by omega), if_pos h]
  · intro h
    unfold syncBalls
    rw [if_neg (by omega), if_neg (by omega)]
    exact ⟨rfl, by simp⟩
  · rcases Nat.lt_trichotomy prev.length N with hlt | heq | hgt
    · unfold syncBalls
      rw [if_neg (by omega), if_neg (by omega)]
      simp only [List.length_append, List.length_map, List.length_range]
      omega
    · unfold syncBalls
      rw [if_pos heq]
      exact heq
    · unfold syncBalls
      rw [if_neg (by omega), if_pos hgt]
      rw [List.length_take]
      omega
  · intro i hi hN
    rcases Nat.lt_trichotomy prev.length N with hlt | heq | hgt
    · unfold syncBalls
      rw [if_neg (by omega), if_neg (by omega)]
      rw [List.getElem?_append]
      rw [if_pos hi]
    · unfold syncBalls
      rw [if_pos heq]
    · unfold syncBalls
      rw [if_neg (by omega), if_pos hgt]
      rw [List.getElem?_take]
      rw [if_pos hN]

theorem population_conservation_witness :
    (2 < demoBalls.length ∧ syncBalls demoSampler demoBalls 2 = demoBalls.take 2)
    ∧ (demoBalls.length < 5
       ∧ syncBalls demoSampler demoBalls 5
          = demoBalls ++ (List.range (5 - demoBalls.length)).map demoSampler)
    ∧ (syncBalls demoSampler demoBalls 3).length = 3
    ∧ (1 < demoBalls.length ∧ 1 < 2 ∧ (syncBalls demoSampler demoBalls 2)[1]? = demoBalls[1]?) :=
  ⟨⟨by decide, (population_conservation demoSampler demoBalls 2).2.1 (by decide)⟩,
   ⟨by decide, ((population_conservation demoSampler demoBalls 5).2.2.1 (by decide)).1⟩,
   (population_conservation demoSampler demoBalls 3).2.2.2.1,
   ⟨by decide, by decide,
    (population_conservation demoSampler demoBalls 2).2.2.2.2 1 (by decide) (by decide)⟩⟩

/-- C8.  Target-count derivation, for every state satisfying the
Exchange Assignment cursor invariant of the design (`0 ≤ cursor ≤ N`,
which `cursorInv_startGift`, `cursorInv_drawCycle`, `cursorInv_toggleMode`,
`cursorInv_resetGift` and the remaining `cursorInv_*` lemmas show every
operation of the app maintains, the SPIN control existing only while the
cursor is in range): 35 in FATE mode; the active-roster size in SQUAD
mode, reduced by one while `RESULT` with a non-empty roster; in GIFT
mode the master-roster size before an exchange starts, else the
remaining participants, reduced by one while `RESULT` with some
remaining; never negative, with zero allowed (the empty-roster cases
derive exactly 0). -/
theorem target_count_derivation (s : AppState) (hinv : cursorInv s) :
    (s.mode = Mode.FATE → currentBallCount s = 35)
    ∧ (s.mode = Mode.SQUAD → s.gameState ≠ GameState.RESULT →
        currentBallCount s = s.activeSquad.length)
    ∧ (s.mode = Mode.SQUAD → s.gameState = GameState.RESULT → s.activeSquad ≠ [] →
        currentBallCount s = (s.activeSquad.length : Int) - 1)
    ∧ (s.mode = Mode.SQUAD → s.activeSquad = [] → currentBallCount s = 0)
    ∧ (s.mode = Mode.GIFT → s.exchangeOrder = [] →
        currentBallCount s = s.squadList.length)
    ∧ (s.mode = Mode.GIFT → s.exchangeOrder ≠ [] → s.gameState ≠ GameState.RESULT →
        currentBallCount s = (s.exchangeOrder.length : Int) - s.exchangeIndex)
    ∧ (s.mode = Mode.GIFT → s.exchangeOrder ≠ [] → s.gameState = GameState.RESULT →
        s.exchangeIndex < s.exchangeOrder.length →
        currentBallCount s = (s.exchangeOrder.length : Int) - s.exchangeIndex - 1)
    ∧ (s.mode = Mode.GIFT → s.exchangeOrder ≠ [] →
        s.exchangeIndex = s.exchangeOrder.length → currentBallCount s = 0)
    ∧ 0 ≤ currentBallCount s := by
  refine ⟨?_, ?_, ?_, ?_, ?_, ?_, ?_, ?_, ?_⟩
  · intro hm
    simp [currentBallCount, hm]
  · intro hm hg
    simp [currentBallCount, hm, hg]
  · intro hm hg hne
    have hpos : (0 : Int) < s.activeSquad.length := by
      have := List.length_pos.mpr hne
      omega
    simp [currentBallCount, hm, hg, hpos]
  · intro hm hne
    simp [currentBallCount, hm, hne]
  · intro hm hord
    simp [currentBallCount, hm, hord]
  · intro hm hord hg
    have hlen : ¬ s.exchangeOrder.length = 0 := by
      simpa using fun hz => hord (List.length_eq_zero.mp hz)
    simp [currentBallCount, hm, hlen, hg]
  · intro hm hord hg hlt
    have hlen : ¬ s.exchangeOrder.length = 0 := by
      simpa using fun hz => hord (List.length_eq_zero.mp hz)
    have hrem : (0 : Int) < (s.exchangeOrder.length : Int) - s.exchangeIndex := by omega
    simp [currentBallCount, hm, hlen, hg, hrem]
  · intro hm hord heq
    have hlen : ¬ s.exchangeOrder.length = 0 := by
      simpa using fun hz => hord (List.length_eq_zero.mp hz)
    simp [currentBallCount, hm, hlen, heq]
  · unfold currentBallCount
    cases hm : s.mode
    · norm_num
    · dsimp only
      split
      · rename_i hcond
        omega
      · omega
    · dsimp only
      split
      · omega
      · split
        · rename_i hlen hcond
          have hord : s.exchangeOrder ≠ [] := by
            intro hz
            exact hlen (by rw [hz]; rfl)
          have := hinv hord
          omega
        · rename_i hlen hcond
          have hord : s.exchangeOrder ≠ [] := by
            intro hz
            exact hlen (by rw [hz]; rfl)
          have := hinv hord
          omega

theorem target_count_derivation_witness :
    cursorInv giftRunState
    ∧ (giftRunState.mode = Mode.GIFT ∧ giftRunState.exchangeOrder ≠ []
       ∧ giftRunState.gameState ≠ GameState.RESULT
       ∧ currentBallCount giftRunState
          = (giftRunState.exchangeOrder.length : Int) - giftRunState.exchangeIndex)
    ∧ 0 ≤ currentBallCount giftRunState
    ∧ (baseState.mode = Mode.FATE ∧ currentBallCount baseState = 35)
    ∧ (emptySquadState.mode = Mode.SQUAD ∧ emptySquadState.activeSquad = []
       ∧ currentBallCount emptySquadState = 0) :=
  ⟨fun _ => by decide,
   ⟨by decide, by decide, by decide,
    (target_count_derivation giftRunState (fun _ => by decide)).2.2.2.2.2.1
      (by decide) (by decide) (by decide)⟩,
   (target_count_derivation giftRunState (fun _ => by decide)).2.2.2.2.2.2.2.2,
   ⟨by decide,
    (target_count_derivation baseState (fun h => absurd rfl h)).1 (by decide)⟩,
   ⟨by decide, by decide,
    (target_count_derivation emptySquadState (fun h => absurd rfl h)).2.2.2.1
      (by decide) (by decide)⟩⟩

/-- C10.  Mascot URL normalisation: `convertDriveLink` maps the empty
string to the empty string; is the identity on every input not
containing `drive.google.com`; on a Drive URL whose text matches
`/d/<id>` (with `id=<id>` as fallback) it rebuilds
`https://drive.google.com/uc?export=view&id=<id>` from the first matched
id — a non-empty run of `[a-zA-Z0-9_-]` characters; and is the identity
on Drive URLs where neither pattern matches. -/
theorem drive_link_normalization (url : String) :
    (url = "" → convertDriveLink url = "")
    ∧ (containsSub "drive.google.com".toList url.toList = false →
        convertDriveLink url = url)
    ∧ (∀ r, url ≠ "" → containsSub "drive.google.com".toList url.toList = true →
        driveIdMatch url.toList = some r →
        convertDriveLink url = "https://drive.google.com/uc?export=view&id=" ++ String.mk r
        ∧ r ≠ [] ∧ ∀ c ∈ r, isIdChar c = true)
    ∧ (url ≠ "" → containsSub "drive.google.com".toList url.toList = true →
        driveIdMatch url.toList = none → convertDriveLink url = url) := by
  refine ⟨?_, ?_, ?_, ?_⟩
  · intro h
    rw [h]
    rfl
  · intro hc
    unfold convertDriveLink
    by_cases h0 : url = ""
    · rw [if_pos h0, h0]
    · rw [if_neg h0, if_neg (by rw [hc]; simp)]
  · intro r h0 hc hm
    obtain ⟨hne, hchars⟩ := driveIdMatch_chars url.toList r hm
    refine ⟨?_, hne, hchars⟩
    unfold convertDriveLink
    rw [if_neg h0, if_pos hc, hm]
  · intro h0 hc hm
    unfold convertDriveLink
    rw [if_neg h0, if_pos hc, hm]

theorem drive_link_normalization_witness :
    (containsSub "drive.google.com".toList
        "https://example.com/image.png".toList = false
     ∧ convertDriveLink "https://example.com/image.png" = "https://example.com/image.png")
    ∧ ("https://drive.google.com/file/d/abc-123_X/view" ≠ ""
       ∧ containsSub "drive.google.com".toList
           "https://drive.google.com/file/d/abc-123_X/view".toList = true
       ∧ driveIdMatch "https://drive.google.com/file/d/abc-123_X/view".toList
           = some "abc-123_X".toList
       ∧ convertDriveLink "https://drive.google.com/file/d/abc-123_X/view"
           = "https://drive.google.com/uc?export=view&id=" ++ String.mk "abc-123_X".toList)
    ∧ ("https://drive.google.com/nothing-here" ≠ ""
       ∧ containsSub "drive.google.com".toList
           "https://drive.google.com/nothing-here".toList = true
       ∧ driveIdMatch "https://drive.google.com/nothing-here".toList = none
       ∧ convertDriveLink "https://drive.google.com/nothing-here"
           = "https://drive.google.com/nothing-here")
    ∧ convertDriveLink "" = "" :=
  ⟨⟨by decide,
    (drive_link_normalization "https://example.com/image.png").2.1 (by decide)⟩,
   ⟨by decide, by decide, by decide,
    ((drive_link_normalization "https://drive.google.com/file/d/abc-123_X/view").2.2.1
      "abc-123_X".toList (by decide) (by decide) (by decide)).1⟩,
   ⟨by decide, by decide, by decide,
    (drive_link_normalization "https://drive.google.com/nothing-here").2.2.2
      (by decide) (by decide) (by decide)⟩,
   (drive_link_normalization "").1 rfl⟩

end GachaNeon
